import Mathlib

/-!
# go-ipfs: node bootstrap (`ipfs init`) and key management (`ipfs key gen` / `ipfs key list`)

Shallow embedding of

* `src/cmd/ipfs/init.go`            : `initCmd`
* `src/core/commands/keystore.go`   : `KeyGenCmd.Run`, `KeyListCmd.Run`

The handlers talk to collaborators that live outside these two files (the file
system, `util.TildeExpansion`, `identify.GenKeypair`, the libp2p key generators,
the repo keystore, `peer.IDFromPublicKey`).  Each collaborator is a field of an
environment record, so every theorem quantifies over all behaviours of the
collaborators.  `initCmd` and `KeyGenCmd.Run` return, besides their Go result, the
list of collaborator calls they made (with the value each call returned) and the
external state they leave; `KeyListCmd.Run` only reads and returns its response.

Go values are embedded as follows: `int` is `Int`, `[]byte` is `List (Fin 256)`,
`string` is `String`, an `error` result is `Option` (`none` is `nil`) and a
`(value, error)` result is `Except`.
-/

set_option autoImplicit false

namespace GoIpfs

/-! ## Errors -/

/-- An error value seen by the caller of a handler. -/
inductive Err where
  /-- created by the handler itself with `errors.New` or `fmt.Errorf` -/
  | new (msg : String)
  /-- returned by a collaborator and passed on unchanged -/
  | ext (e : String)
  deriving DecidableEq, Repr

deriving instance DecidableEq for Except

/-! ## encoding/base64, `StdEncoding` -/

namespace base64

/-- The alphabet of `base64.StdEncoding` (`encodeStd`). -/
def encodeStd : List Char :=
  "ABCDEFGHIJKLMNOPQRSTUVWXYZabcdefghijklmnopqrstuvwxyz0123456789+/".data

/-- Table lookup `enc.encode[i]`; every index the encoder uses is masked with `0x3F`. -/
def encodeChar (i : Nat) : Char := encodeStd.getD i 'A'

/-- The padding character `StdPadding`. -/
def padChar : Char := '='

/-- `(*Encoding).Encode`: whole 3-byte groups first, then the 1- or 2-byte remainder,
padded. -/
def Encode : List (Fin 256) → List Char
  | b0 :: b1 :: b2 :: rest =>
    let val := (b0.val <<< 16) ||| (b1.val <<< 8) ||| b2.val
    encodeChar ((val >>> 18) &&& 0x3F) :: encodeChar ((val >>> 12) &&& 0x3F) ::
      encodeChar ((val >>> 6) &&& 0x3F) :: encodeChar (val &&& 0x3F) :: Encode rest
  | [b0, b1] =>
    let val := (b0.val <<< 16) ||| (b1.val <<< 8)
    [encodeChar ((val >>> 18) &&& 0x3F), encodeChar ((val >>> 12) &&& 0x3F),
      encodeChar ((val >>> 6) &&& 0x3F), padChar]
  | [b0] =>
    let val := b0.val <<< 16
    [encodeChar ((val >>> 18) &&& 0x3F), encodeChar ((val >>> 12) &&& 0x3F), padChar, padChar]
  | [] => []

/-- `(*Encoding).EncodeToString`. -/
def EncodeToString (src : List (Fin 256)) : String := String.mk (Encode src)

/-- The entry `enc.decodeMap[c]`: the position of `c` in the alphabet, `none` for a
character outside it (`0xFF` in Go). -/
def decodeChar (c : Char) : Option Nat :=
  let i := encodeStd.indexOf c
  if i < 64 then some i else none

/-- Conversion `byte(x)` of an unsigned value: the low eight bits. -/
def byte (x : Nat) : Fin 256 := ⟨x % 256, Nat.mod_lt x (by decide)⟩

/-- The quantum loop of `(*Encoding).Decode` on input without line breaks: four characters
give three bytes; the last quantum may end in one or two padding characters and then gives
two bytes or one.  Anything else is a `CorruptInputError` (`none`). -/
def decodeQuanta : List Char → Option (List (Fin 256))
  | [] => some []
  | c0 :: c1 :: c2 :: c3 :: rest =>
    match decodeChar c0, decodeChar c1 with
    | some s0, some s1 =>
      if c2 = padChar then
        if c3 = padChar ∧ rest = [] then
          let val := (s0 <<< 18) ||| (s1 <<< 12)
          some [byte (val >>> 16)]
        else none
      else
        match decodeChar c2 with
        | none => none
        | some s2 =>
          if c3 = padChar then
            if rest = [] then
              let val := (s0 <<< 18) ||| (s1 <<< 12) ||| (s2 <<< 6)
              some [byte (val >>> 16), byte (val >>> 8)]
            else none
          else
            match decodeChar c3 with
            | none => none
            | some s3 =>
              let val := (s0 <<< 18) ||| (s1 <<< 12) ||| (s2 <<< 6) ||| s3
              (decodeQuanta rest).map
                (fun tl => byte (val >>> 16) :: byte (val >>> 8) :: byte val :: tl)
    | _, _ => none
  | _ => none

/-- `(*Encoding).DecodeString`: carriage returns and line feeds are skipped, the rest is
decoded quantum by quantum. -/
def DecodeString (s : String) : Option (List (Fin 256)) :=
  decodeQuanta (s.data.filter (fun c => c != '\r' && c != '\n'))

end base64

/-! ## `cmd/ipfs/init.go` -/

/-- The part of `config.Datastore` that `initCmd` fills in. -/
structure Datastore where
  Type_ : String
  Path : String
  deriving DecidableEq, Repr

/-- The part of `config.Identity` that `initCmd` fills in. -/
structure Identity where
  PeerID : String
  PrivKey : String
  deriving DecidableEq, Repr

/-- The part of `config.Config` that `initCmd` fills in. -/
structure Config where
  Identity : Identity
  Datastore : Datastore
  deriving DecidableEq, Repr

/-- The flags registered in `init()`: `-b` (default 4096), `-p` (default empty) and
`-f` (default false). -/
structure InitFlags where
  b : Int
  p : String
  f : Bool
  deriving DecidableEq, Repr

/-- The collaborators of `initCmd`.  `FS` is the state of the file system, `KP` the type
`identify.Keypair`, `PID` the type `peer.ID`. -/
structure InitEnv (FS KP PID : Type) where
  /-- the constant `config.DefaultConfigFilePath` -/
  DefaultConfigFilePath : String
  /-- the error result of `os.Lstat(name)` -/
  Lstat : FS → String → Option String
  /-- the function `u.TildeExpansion` -/
  TildeExpansion : String → Except String String
  /-- what `identify.GenKeypair(bits)` returns in this run -/
  GenKeypair : Int → Except String KP
  /-- the method `kp.PrivBytes()` -/
  PrivBytes : KP → List (Fin 256)
  /-- the method `kp.ID()` -/
  ID : KP → Except String PID
  /-- the method `id.Pretty()` -/
  Pretty : PID → String
  /-- the function `config.WriteConfigFile(filename, cfg)`: its error and the file system
  it leaves -/
  WriteConfigFile : FS → String → Config → Option String × FS

/-- A collaborator call made by `initCmd`, with what it returned. -/
inductive InitCall (KP PID : Type) where
  | Lstat (name : String) (err : Option String)
  | TildeExpansion (filename : String) (res : Except String String)
  | GenKeypair (bits : Int) (res : Except String KP)
  | ID (kp : KP) (res : Except String PID)
  | WriteConfigFile (filename : String) (cfg : Config) (err : Option String)
  deriving DecidableEq

/-- Outcome of one run of `initCmd`: the returned error (`none` is `nil`), the collaborator
calls in order, and the file system afterwards. -/
structure InitResult (FS KP PID : Type) where
  ret : Option Err
  calls : List (InitCall KP PID)
  fs : FS

/-- The message of the error returned by the overwrite guard. -/
def errAlreadyExists : Err :=
  .new "ipfs configuration file already exists!\nReinitializing would overwrite your keys.\n(use -f to force overwrite)"

/-- The message of the error returned for a small `-b`. -/
def errUnsafeBitsize : Err := .new "Bitsize less than 1024 is considered unsafe."

/-- Function `initCmd(c, inp)` of `init.go`; `flags` are the values of `c.Flag`. -/
def initCmd {FS KP PID : Type} (env : InitEnv FS KP PID) (fs : FS) (flags : InitFlags)
    (_inp : List String) : InitResult FS KP PID :=
  let err := env.Lstat fs env.DefaultConfigFilePath
  let c1 : List (InitCall KP PID) := [.Lstat env.DefaultConfigFilePath err]
  let force := flags.f
  if err ≠ none ∧ !force then
    ⟨some errAlreadyExists, c1, fs⟩
  else
    let r2 := env.TildeExpansion "~/.go-ipfs/datastore"
    let c2 := c1 ++ [.TildeExpansion "~/.go-ipfs/datastore" r2]
    match r2 with
    | .error e => ⟨some (.ext e), c2, fs⟩
    | .ok dspath =>
      let nbits := flags.b
      if nbits < 1024 then
        ⟨some errUnsafeBitsize, c2, fs⟩
      else
        let r3 := env.GenKeypair nbits
        let c3 := c2 ++ [.GenKeypair nbits r3]
        match r3 with
        | .error e => ⟨some (.ext e), c3, fs⟩
        | .ok kp =>
          let enckey := base64.EncodeToString (env.PrivBytes kp)
          let r4 := env.ID kp
          let c4 := c3 ++ [.ID kp r4]
          match r4 with
          | .error e => ⟨some (.ext e), c4, fs⟩
          | .ok id =>
            let r5 := env.TildeExpansion env.DefaultConfigFilePath
            let c5 := c4 ++ [.TildeExpansion env.DefaultConfigFilePath r5]
            match r5 with
            | .error e => ⟨some (.ext e), c5, fs⟩
            | .ok path =>
              let cfg : Config :=
                { Identity := { PeerID := env.Pretty id, PrivKey := enckey },
                  Datastore := { Type_ := "leveldb", Path := dspath } }
              let w := env.WriteConfigFile fs path cfg
              let c6 := c5 ++ [.WriteConfigFile path cfg w.1]
              match w.1 with
              | some e => ⟨some (.ext e), c6, w.2⟩
              | none => ⟨none, c6, w.2⟩

/-! ## `core/commands/keystore.go` -/

/-- Go type `KeyOutput`. -/
structure KeyOutput where
  Name : String
  Id : String
  deriving DecidableEq, Repr

/-- Go type `KeyOutputList`. -/
structure KeyOutputList where
  Keys : List KeyOutput
  deriving DecidableEq, Repr

/-- The collaborators of the key commands.  `KS` is the state of the repo keystore, `SK` the
type `ci.PrivKey`, `PK` the type `ci.PubKey`, `PID` the type `peer.ID`. -/
structure KeyEnv (KS SK PK PID : Type) where
  /-- what `ci.GenerateKeyPairWithReader(ci.RSA, bits, rand.Reader)` returns in this run -/
  GenerateKeyPairWithReader : Int → Except String (SK × PK)
  /-- what `ci.GenerateEd25519Key(rand.Reader)` returns in this run -/
  GenerateEd25519Key : Except String (SK × PK)
  /-- the method `Keystore().Put(name, sk)`: its error and the keystore it leaves -/
  Put : KS → String → SK → Option String × KS
  /-- the method `Keystore().Get(name)` -/
  Get : KS → String → Except String SK
  /-- the method `privKey.GetPublic()` -/
  GetPublic : SK → PK
  /-- the function `peer.IDFromPublicKey` -/
  IDFromPublicKey : PK → Except String PID
  /-- the method `pid.Pretty()` -/
  Pretty : PID → String
  /-- the method `Keystore().List()` -/
  List : KS → Except String (List String)

/-- What a handler reads from its `cmds.Request`. -/
structure Request (KS : Type) where
  /-- the result of `req.InvocContext().GetNode()`; a node is given by the state of its
  `Repo.Keystore()` -/
  GetNode : Except String KS
  /-- the result `(typ, f, err)` of `req.Option("type").String()` -/
  OptionType : String × Bool × Option String
  /-- the result `(size, sizefound, err)` of `req.Option("size").Int()` -/
  OptionSize : Int × Bool × Option String
  /-- the result of `req.Arguments()` -/
  Arguments : List String

/-- What a handler wrote to its `cmds.Response`: the error given to `SetError` and the value
given to `SetOutput` (`none` when the method was not called). -/
structure Response (α : Type) where
  err : Option Err
  output : Option α
  deriving DecidableEq

/-- A collaborator call made by `KeyGenCmd`, with what it returned. -/
inductive KeyCall (SK PK PID : Type) where
  | GenerateKeyPairWithReader (bits : Int) (res : Except String (SK × PK))
  | GenerateEd25519Key (res : Except String (SK × PK))
  | Put (name : String) (sk : SK) (err : Option String)
  | IDFromPublicKey (pk : PK) (res : Except String PID)
  deriving DecidableEq

/-- Outcome of one run of `KeyGenCmd`: the response, the collaborator calls in order, the
keystore of the node afterwards (`none` when no node was obtained), and whether the run
ended in a run-time panic (indexing an empty argument list). -/
structure KeyGenResult (KS SK PK PID : Type) where
  res : Response KeyOutput
  calls : List (KeyCall SK PK PID)
  ks : Option KS
  panicked : Bool

/-- The error `KeyGenCmd` sets for the reserved name. -/
def errSelf : Err := .new "cannot create key with name \x27self\x27"

/-- Lines 112 to 127 of `keystore.go`, the part of `KeyGenCmd.Run` after the `switch`: store
the private key, then derive the identifier of the public key and set the output. -/
def KeyGenCmd.store {KS SK PK PID : Type} (env : KeyEnv KS SK PK PID) (n : KS)
    (name : String) (sk : SK) (pk : PK) (calls : List (KeyCall SK PK PID)) :
    KeyGenResult KS SK PK PID :=
  let p := env.Put n name sk
  let c1 := calls ++ [.Put name sk p.1]
  match p.1 with
  | some err => ⟨⟨some (.ext err), none⟩, c1, some p.2, false⟩
  | none =>
    let r := env.IDFromPublicKey pk
    let c2 := c1 ++ [.IDFromPublicKey pk r]
    match r with
    | .error err => ⟨⟨some (.ext err), none⟩, c2, some p.2, false⟩
    | .ok pid => ⟨⟨none, some { Name := name, Id := env.Pretty pid }⟩, c2, some p.2, false⟩

/-- The `Run` function of `KeyGenCmd`. -/
def KeyGenCmd.Run {KS SK PK PID : Type} (env : KeyEnv KS SK PK PID) (req : Request KS) :
    KeyGenResult KS SK PK PID :=
  match req.GetNode with
  | .error err => ⟨⟨some (.ext err), none⟩, [], none, false⟩
  | .ok n =>
    match req.OptionType with
    | (_, _, some err) => ⟨⟨some (.ext err), none⟩, [], some n, false⟩
    | (typ, f, none) =>
      if !f then
        ⟨⟨some (.new "please specify a key type with --type"), none⟩, [], some n, false⟩
      else
        match req.OptionSize with
        | (_, _, some err) => ⟨⟨some (.ext err), none⟩, [], some n, false⟩
        | (size, sizefound, none) =>
          match req.Arguments with
          | [] => ⟨⟨none, none⟩, [], some n, true⟩
          | name :: _ =>
            if name = "self" then
              ⟨⟨some errSelf, none⟩, [], some n, false⟩
            else if typ = "rsa" then
              if !sizefound then
                ⟨⟨some (.new "please specify a key size with --size"), none⟩, [], some n, false⟩
              else
                let g := env.GenerateKeyPairWithReader size
                match g with
                | .error err =>
                  ⟨⟨some (.ext err), none⟩, [.GenerateKeyPairWithReader size g], some n, false⟩
                | .ok (priv, pub) =>
                  KeyGenCmd.store env n name priv pub [.GenerateKeyPairWithReader size g]
            else if typ = "ed25519" then
              let g := env.GenerateEd25519Key
              match g with
              | .error err => ⟨⟨some (.ext err), none⟩, [.GenerateEd25519Key g], some n, false⟩
              | .ok (priv, pub) => KeyGenCmd.store env n name priv pub [.GenerateEd25519Key g]
            else
              ⟨⟨some (.new ("unrecognized key type: " ++ typ)), none⟩, [], some n, false⟩

namespace sort

/-- Go comparison `a < b` of two strings, on their characters: the first position where they
differ decides, a proper start of a string is smaller.  (Go compares the UTF-8 bytes, which
orders strings as their code points do.) -/
def lessChars : List Char → List Char → Bool
  | _, [] => false
  | [], _ :: _ => true
  | x :: xs, y :: ys => decide (x.toNat < y.toNat) || (x.toNat == y.toNat && lessChars xs ys)

/-- Method `StringSlice.Less`: `x[i] < x[j]`. -/
def Less (a b : String) : Bool := lessChars a.data b.data

/-- `sort.Strings`: the slice in increasing order.  No element is placed after one that is
`Less` than it. -/
def Strings (x : List String) : List String :=
  List.insertionSort (fun a b => Less b a = false) x

end sort

/-- The `for` loop of `KeyListCmd.Run`: `keys` are the names still to visit, `list` the
entries appended so far. -/
def KeyListCmd.loop {KS SK PK PID : Type} (env : KeyEnv KS SK PK PID) (n : KS) :
    List String → List KeyOutput → Except String (List KeyOutput)
  | [], list => .ok list
  | key :: keys, list =>
    match env.Get n key with
    | .error err => .error err
    | .ok privKey =>
      let pubKey := env.GetPublic privKey
      match env.IDFromPublicKey pubKey with
      | .error err => .error err
      | .ok pid => KeyListCmd.loop env n keys (list ++ [{ Name := key, Id := env.Pretty pid }])

/-- The `Run` function of `KeyListCmd`. -/
def KeyListCmd.Run {KS SK PK PID : Type} (env : KeyEnv KS SK PK PID) (req : Request KS) :
    Response KeyOutputList :=
  match req.GetNode with
  | .error err => ⟨some (.ext err), none⟩
  | .ok n =>
    match env.List n with
    | .error err => ⟨some (.ext err), none⟩
    | .ok keys =>
      let keys := sort.Strings keys
      match KeyListCmd.loop env n keys [] with
      | .error err => ⟨some (.ext err), none⟩
      | .ok list => ⟨none, some ⟨list⟩⟩

/-! ## Concrete collaborators, used to run the handlers on explicit inputs -/

/-- A keypair of the demonstration identity provider: the raw private-key bytes and the
identifier its `ID()` gives. -/
structure DemoKeypair where
  priv : List (Fin 256)
  id : String
  deriving DecidableEq

/-- A file system that holds at most the configuration artifact (`none`: no artifact), a
home directory `/home/ipfs`, and an identity provider that always succeeds. -/
def demoInitEnv : InitEnv (Option Config) DemoKeypair String where
  DefaultConfigFilePath := "~/.go-ipfs/config"
  Lstat fs _ := if fs.isSome then none else some "lstat ~/.go-ipfs/config: no such file or directory"
  TildeExpansion s := .ok (String.mk ("/home/ipfs".data ++ s.data.drop 1))
  GenKeypair bits := .ok { priv := [48, 130, base64.byte bits.toNat], id := "QmNode" }
  PrivBytes kp := kp.priv
  ID kp := .ok kp.id
  Pretty id := id
  WriteConfigFile _ _ cfg := (none, some cfg)

/-- The same collaborators on a machine where the home directory cannot be determined. -/
def noHomeInitEnv : InitEnv (Option Config) DemoKeypair String :=
  { demoInitEnv with TildeExpansion := fun _ => .error "user: Current not implemented" }

/-- A configuration artifact written by an earlier bootstrap. -/
def oldConfig : Config :=
  { Identity := { PeerID := "QmOld", PrivKey := "AQID" },
    Datastore := { Type_ := "leveldb", Path := "/home/ipfs/.go-ipfs/datastore" } }

/-- The record a bootstrap with the demonstration collaborators and `-b 4096` writes. -/
def newConfig : Config :=
  { Identity := { PeerID := "QmNode", PrivKey := "MIIA" },
    Datastore := { Type_ := "leveldb", Path := "/home/ipfs/.go-ipfs/datastore" } }

/-- An in-memory keystore: the entries in the order they were stored. -/
abbrev MemKeystore := List (String × String)

/-- Modelled from the spec: the keystore operation `put` of section 4.3 (package `keystore`
is not among the sources): it fails for the reserved name and for a name already present,
and otherwise adds the entry. -/
def memPut (ks : MemKeystore) (name : String) (sk : String) : Option String × MemKeystore :=
  if name = "self" then (some "cannot overwrite key with name self", ks)
  else if (ks.lookup name).isSome then
    (some "key by that name already exists, refusing to overwrite", ks)
  else (none, ks ++ [(name, sk)])

/-- Modelled from the spec: the keystore operation `get` of section 4.3. -/
def memGet (ks : MemKeystore) (name : String) : Except String String :=
  match ks.lookup name with
  | some sk => .ok sk
  | none => .error "no key by the given name was found"

/-- Modelled from the spec: the keystore operation `list` of section 4.3. -/
def memList (ks : MemKeystore) : Except String (List String) := .ok (ks.map Prod.fst)

/-- Key commands over the in-memory keystore.  Keys and identifiers are labels; the RSA
provider refuses fewer than 512 bits and nothing else. -/
def demoKeyEnv : KeyEnv MemKeystore String String String where
  GenerateKeyPairWithReader bits :=
    if bits < 512 then .error "rsa keys must be >= 512 bits to be useful"
    else .ok ("rsa-priv", "rsa-priv.pub")
  GenerateEd25519Key := .ok ("ed-priv", "ed-priv.pub")
  Put := memPut
  Get := memGet
  GetPublic sk := sk ++ ".pub"
  IDFromPublicKey pk := .ok ("Qm-" ++ pk)
  Pretty pid := pid
  List := memList

/-- The same collaborators with an identifier derivation that fails. -/
def brokenIdKeyEnv : KeyEnv MemKeystore String String String :=
  { demoKeyEnv with IDFromPublicKey := fun _ => .error "cannot marshal public key" }

/-- A keystore in which the names `b`, `a` and `c` were stored, in this order. -/
def bacKeystore : MemKeystore := [("b", "kb"), ("a", "ka"), ("c", "kc")]

/-- A request without options or arguments, served by the node that owns `bacKeystore`. -/
def bacRequest : Request MemKeystore :=
  { GetNode := .ok bacKeystore, OptionType := ("", false, none), OptionSize := (0, false, none),
    Arguments := [] }

/-- A request `key gen --type ed25519 self` that reaches the handler when no node can be
built. -/
def selfRequestNoNode : Request MemKeystore :=
  { GetNode := .error "no ipfs repo found", OptionType := ("ed25519", true, none),
    OptionSize := (0, false, none), Arguments := ["self"] }

/-- A request `key gen --type ed25519 self` whose size option does not hold an int. -/
def selfRequestBadSize : Request MemKeystore :=
  { GetNode := .ok [], OptionType := ("ed25519", true, none),
    OptionSize := (0, true, some "cast error"), Arguments := ["self"] }

/-- A request `key gen --type rsa --size 4096 self` against an empty keystore. -/
def selfRequest : Request MemKeystore :=
  { GetNode := .ok [], OptionType := ("rsa", true, none),
    OptionSize := (4096, true, none), Arguments := ["self"] }

/-- A request `key gen --type rsa --size 512 weak` against an empty keystore. -/
def weakRequest : Request MemKeystore :=
  { GetNode := .ok [], OptionType := ("rsa", true, none),
    OptionSize := (512, true, none), Arguments := ["weak"] }

/-- A request `key gen --type ed25519 node1` against an empty keystore. -/
def node1Request : Request MemKeystore :=
  { GetNode := .ok [], OptionType := ("ed25519", true, none),
    OptionSize := (0, false, none), Arguments := ["node1"] }

/-! ## base64: decoding undoes encoding -/

namespace base64

/-- Masking with `0x3F` keeps the low six bits. -/
theorem and_3F (x : Nat) : x &&& 0x3F = x % 64 :=
  Nat.and_pow_two_sub_one_eq_mod x 6

/-- The decode map inverts the alphabet table on every index below 64. -/
theorem decodeChar_encodeChar : ∀ i, i < 64 → decodeChar (encodeChar i) = some i := by
  decide

/-- No alphabet character is the padding character. -/
theorem encodeChar_ne_padChar : ∀ i, i < 64 → encodeChar i ≠ padChar := by
  decide

/-- No alphabet character is a line break. -/
theorem encodeChar_not_newline :
    ∀ i, i < 64 → (encodeChar i != '\r' && encodeChar i != '\n') = true := by
  decide

/-- Three bytes packed with shifts and bitwise or, as arithmetic. -/
theorem or_shift3 (b0 b1 b2 : Nat) (h1 : b1 < 256) (h2 : b2 < 256) :
    (b0 <<< 16) ||| (b1 <<< 8) ||| b2 = b0 * 65536 + b1 * 256 + b2 := by
  have e1 : b0 <<< 16 ||| b1 <<< 8 = 2 ^ 8 * (b0 * 256 + b1) := by
    rw [Nat.shiftLeft_eq, Nat.shiftLeft_eq, Nat.mul_comm b0 (2 ^ 16),
      ← Nat.mul_add_lt_is_or (by omega) b0]
    omega
  rw [e1, ← Nat.mul_add_lt_is_or (by omega) _]
  omega

/-- Two bytes packed with shifts and bitwise or, as arithmetic. -/
theorem or_shift2 (b0 b1 : Nat) (h1 : b1 < 256) :
    (b0 <<< 16) ||| (b1 <<< 8) = b0 * 65536 + b1 * 256 := by
  have h := or_shift3 b0 b1 0 h1 (by decide)
  simpa using h

/-- Four sextets packed with shifts and bitwise or, as arithmetic. -/
theorem or_sextets4 (s0 s1 s2 s3 : Nat) (h1 : s1 < 64) (h2 : s2 < 64) (h3 : s3 < 64) :
    (s0 <<< 18) ||| (s1 <<< 12) ||| (s2 <<< 6) ||| s3
      = s0 * 262144 + s1 * 4096 + s2 * 64 + s3 := by
  have e1 : s0 <<< 18 ||| s1 <<< 12 = 2 ^ 12 * (s0 * 64 + s1) := by
    rw [Nat.shiftLeft_eq, Nat.shiftLeft_eq, Nat.mul_comm s0 (2 ^ 18),
      ← Nat.mul_add_lt_is_or (by omega) s0]
    omega
  have e2 : 2 ^ 12 * (s0 * 64 + s1) ||| s2 <<< 6 = 2 ^ 6 * ((s0 * 64 + s1) * 64 + s2) := by
    rw [Nat.shiftLeft_eq, ← Nat.mul_add_lt_is_or (by omega) _]
    omega
  rw [e1, e2, ← Nat.mul_add_lt_is_or (by omega) _]
  omega

/-- Decoding the character emitted for a masked value gives its low six bits. -/
theorem decodeChar_sextet (x : Nat) :
    decodeChar (encodeChar (x &&& 0x3F)) = some (x % 64) := by
  rw [and_3F]
  exact decodeChar_encodeChar _ (Nat.mod_lt _ (by decide))

/-- The character emitted for a masked value is not the padding character. -/
theorem sextet_ne_padChar (x : Nat) : encodeChar (x &&& 0x3F) ≠ padChar := by
  rw [and_3F]
  exact encodeChar_ne_padChar _ (Nat.mod_lt _ (by decide))

/-- The character emitted for a masked value is not a line break. -/
theorem sextet_not_newline (x : Nat) :
    (encodeChar (x &&& 0x3F) != '\r' && encodeChar (x &&& 0x3F) != '\n') = true := by
  rw [and_3F]
  exact encodeChar_not_newline _ (Nat.mod_lt _ (by decide))

/-- The padding character is not a line break. -/
theorem padChar_not_newline : (padChar != '\r' && padChar != '\n') = true := by
  decide

/-- Skipping line breaks leaves encoder output as it is. -/
theorem filter_Encode (src : List (Fin 256)) :
    (Encode src).filter (fun c => c != '\r' && c != '\n') = Encode src := by
  induction src using Encode.induct with
  | case1 b0 b1 b2 rest ih =>
    simp only [Encode, List.filter_cons, sextet_not_newline, if_true, ih]
  | case2 b0 b1 =>
    simp only [Encode, List.filter_cons, sextet_not_newline, padChar_not_newline, if_true,
      List.filter_nil]
  | case3 b0 =>
    simp only [Encode, List.filter_cons, sextet_not_newline, padChar_not_newline, if_true,
      List.filter_nil]
  | case4 => rfl

/-- Three sextets packed with shifts and bitwise or, as arithmetic. -/
theorem or_sextets3 (s0 s1 s2 : Nat) (h1 : s1 < 64) (h2 : s2 < 64) :
    (s0 <<< 18) ||| (s1 <<< 12) ||| (s2 <<< 6) = s0 * 262144 + s1 * 4096 + s2 * 64 := by
  have h := or_sextets4 s0 s1 s2 0 h1 h2 (by decide)
  simpa using h

/-- Two sextets packed with shifts and bitwise or, as arithmetic. -/
theorem or_sextets2 (s0 s1 : Nat) (h1 : s1 < 64) :
    (s0 <<< 18) ||| (s1 <<< 12) = s0 * 262144 + s1 * 4096 := by
  have h := or_sextets3 s0 s1 0 h1 (by decide)
  simpa using h

/-- A value whose low eight bits are those of `b` converts to `b`. -/
theorem byte_val (b : Fin 256) (x : Nat) (h : x % 256 = b.val) : byte x = b :=
  Fin.ext h

/-- The quantum loop recovers every byte sequence from its encoding. -/
theorem decodeQuanta_Encode (src : List (Fin 256)) : decodeQuanta (Encode src) = some src := by
  induction src using Encode.induct with
  | case1 b0 b1 b2 rest ih =>
    have h0 := b0.isLt
    have h1 := b1.isLt
    have h2 := b2.isLt
    simp only [Encode, decodeQuanta, decodeChar_sextet, sextet_ne_padChar, if_false, ih,
      Option.map_some']
    rw [or_shift3 _ _ _ h1 h2,
      or_sextets4 _ _ _ _ (Nat.mod_lt _ (by decide)) (Nat.mod_lt _ (by decide))
        (Nat.mod_lt _ (by decide))]
    simp only [Nat.shiftRight_eq_div_pow]
    congr 2
    · exact byte_val _ _ (by omega)
    · congr 1
      · exact byte_val _ _ (by omega)
      · congr 1
        exact byte_val _ _ (by omega)
  | case2 b0 b1 =>
    have h0 := b0.isLt
    have h1 := b1.isLt
    simp only [Encode, decodeQuanta, decodeChar_sextet, sextet_ne_padChar, if_false, if_true]
    rw [or_shift2 _ _ h1,
      or_sextets3 _ _ _ (Nat.mod_lt _ (by decide)) (Nat.mod_lt _ (by decide))]
    simp only [Nat.shiftRight_eq_div_pow]
    congr 2
    · exact byte_val _ _ (by omega)
    · congr 1
      exact byte_val _ _ (by omega)
  | case3 b0 =>
    have h0 := b0.isLt
    simp only [Encode, decodeQuanta, decodeChar_sextet, and_self, if_true]
    rw [or_sextets2 _ _ (Nat.mod_lt _ (by decide))]
    simp only [Nat.shiftRight_eq_div_pow, Nat.shiftLeft_eq]
    congr 2
    exact byte_val _ _ (by omega)
  | case4 => rfl

/-- `DecodeString` undoes `EncodeToString`, for every byte sequence. -/
theorem DecodeString_EncodeToString (src : List (Fin 256)) :
    DecodeString (EncodeToString src) = some src := by
  simp only [DecodeString, EncodeToString, filter_Encode, decodeQuanta_Encode]

end base64

/-! ## sort.Strings -/

namespace sort

/-- Comparing code points is comparing characters. -/
theorem char_lt_iff (x y : Char) : x.toNat < y.toNat ↔ x < y := by
  rw [Char.lt_def]
  exact Iff.rfl

/-- Characters with the same code point are equal. -/
theorem char_eq_iff (x y : Char) : x.toNat = y.toNat ↔ x = y := by
  constructor
  · intro h
    apply Char.ext
    apply UInt32.ext
    exact h
  · intro h
    rw [h]

/-- `lessChars` decides the lexicographic order on character lists. -/
theorem lessChars_iff : ∀ a b : List Char, lessChars a b = true ↔ List.Lex (· < ·) a b
  | a, [] => by
    cases a <;> simp [lessChars]
  | [], y :: ys => by
    simp [lessChars, List.Lex.nil]
  | x :: xs, y :: ys => by
    simp only [lessChars, Bool.or_eq_true, Bool.and_eq_true, decide_eq_true_eq, beq_iff_eq,
      char_lt_iff, char_eq_iff, lessChars_iff xs ys]
    constructor
    · rintro (h | ⟨h, h'⟩)
      · exact List.Lex.rel h
      · subst h
        exact List.Lex.cons h'
    · intro h
      cases h with
      | cons h' => exact Or.inr ⟨rfl, h'⟩
      | rel h' => exact Or.inl h'

/-- `Less` decides the lexicographic order on strings. -/
theorem Less_iff (a b : String) : Less a b = true ↔ a < b := by
  rw [String.lt_iff_toList_lt]
  exact lessChars_iff a.data b.data

/-- Not being `Less` the other way round is the order `≤` on strings. -/
theorem not_Less_iff (a b : String) : Less b a = false ↔ a ≤ b := by
  rw [← not_lt, ← Less_iff]
  simp

/-- The result of `Strings` is in ascending lexicographic order. -/
theorem Strings_sorted (x : List String) : List.Sorted (· ≤ ·) (Strings x) := by
  have total : IsTotal String (fun a b => Less b a = false) :=
    ⟨fun a b => by simp only [not_Less_iff]; exact le_total a b⟩
  have trans : IsTrans String (fun a b => Less b a = false) :=
    ⟨fun a b c => by simp only [not_Less_iff]; exact le_trans⟩
  have h := List.sorted_insertionSort (fun a b : String => Less b a = false) x
  exact List.Pairwise.imp (fun {a b} hab => (not_Less_iff a b).mp hab) h

/-- The result of `Strings` is a rearrangement of the slice. -/
theorem Strings_perm (x : List String) : (Strings x).Perm x :=
  List.perm_insertionSort _ x

/-- The result of `Strings` does not depend on the sorting algorithm: it is the only
arrangement of the slice in increasing order. -/
theorem Strings_unique (x l : List String) (hp : l.Perm x) (hs : List.Sorted (· ≤ ·) l) :
    l = Strings x :=
  List.eq_of_perm_of_sorted (hp.trans (Strings_perm x).symm) hs (Strings_sorted x)

end sort

/-! ## The loop of `KeyListCmd` -/

/-- When the loop ends normally, it has appended one entry per name, in the order of the
names, each holding the identifier derived from the key stored under its name. -/
theorem KeyListCmd.loop_ok {KS SK PK PID : Type} (env : KeyEnv KS SK PK PID) (n : KS) :
    ∀ (keys : List String) (acc list : List KeyOutput),
      KeyListCmd.loop env n keys acc = .ok list →
      ∃ tl, list = acc ++ tl ∧ tl.map (fun e => e.Name) = keys ∧
        ∀ e ∈ tl, ∃ sk pid, env.Get n e.Name = .ok sk ∧
          env.IDFromPublicKey (env.GetPublic sk) = .ok pid ∧ e.Id = env.Pretty pid
  | [], acc, list, h => by
    simp only [KeyListCmd.loop, Except.ok.injEq] at h
    exact ⟨[], by simp [h], rfl, by simp⟩
  | key :: keys, acc, list, h => by
    simp only [KeyListCmd.loop] at h
    cases hg : env.Get n key with
    | error e => simp [hg] at h
    | ok sk =>
      simp only [hg] at h
      cases hi : env.IDFromPublicKey (env.GetPublic sk) with
      | error e => simp [hi] at h
      | ok pid =>
        simp only [hi] at h
        obtain ⟨tl, h1, h2, h3⟩ := KeyListCmd.loop_ok env n keys _ list h
        refine ⟨{ Name := key, Id := env.Pretty pid } :: tl, by simp [h1], by simp [h2], ?_⟩
        intro e he
        rcases List.mem_cons.mp he with rfl | he
        · exact ⟨sk, pid, hg, hi, rfl⟩
        · exact h3 e he

/-- When the loop ends with an error, that error came from `Get` or from the identifier
derivation of one of the names. -/
theorem KeyListCmd.loop_error {KS SK PK PID : Type} (env : KeyEnv KS SK PK PID) (n : KS) :
    ∀ (keys : List String) (acc : List KeyOutput) (err : String),
      KeyListCmd.loop env n keys acc = .error err →
      ∃ key ∈ keys, env.Get n key = .error err ∨
        ∃ sk, env.Get n key = .ok sk ∧ env.IDFromPublicKey (env.GetPublic sk) = .error err
  | [], acc, err, h => by simp [KeyListCmd.loop] at h
  | key :: keys, acc, err, h => by
    simp only [KeyListCmd.loop] at h
    cases hg : env.Get n key with
    | error e =>
      simp only [hg, Except.error.injEq] at h
      exact ⟨key, by simp, Or.inl (by rw [hg, h])⟩
    | ok sk =>
      simp only [hg] at h
      cases hi : env.IDFromPublicKey (env.GetPublic sk) with
      | error e =>
        simp only [hi, Except.error.injEq] at h
        exact ⟨key, by simp, Or.inr ⟨sk, hg, by rw [hi, h]⟩⟩
      | ok pid =>
        simp only [hi] at h
        obtain ⟨k, hk, hk'⟩ := KeyListCmd.loop_error env n keys _ err h
        exact ⟨k, List.mem_cons_of_mem _ hk, hk'⟩

/-! ## Claims about `KeyListCmd` -/

/-- C8: whenever the node's keystore lists its names and every listed name resolves (its key
loads and the identifier of its public key is derived), `KeyListCmd` sets no error and
outputs a list whose names are in ascending lexicographic order and are a permutation of the
names the keystore listed (so the lengths agree), each entry holding
`Pretty(IDFromPublicKey(Get(Name).GetPublic()))`. -/
theorem KeyListCmd_sorted_listing {KS SK PK PID : Type} (env : KeyEnv KS SK PK PID)
    (req : Request KS) (n : KS) (names : List String)
    (hnode : req.GetNode = .ok n) (hlist : env.List n = .ok names)
    (hres : ∀ name ∈ names, ∃ sk pid, env.Get n name = .ok sk ∧
      env.IDFromPublicKey (env.GetPublic sk) = .ok pid) :
    ∃ list : List KeyOutput,
      KeyListCmd.Run env req = ⟨none, some ⟨list⟩⟩ ∧
      List.Sorted (· ≤ ·) (list.map (fun e => e.Name)) ∧
      (list.map (fun e => e.Name)).Perm names ∧
      list.length = names.length ∧
      ∀ e ∈ list, ∃ sk pid, env.Get n e.Name = .ok sk ∧
        env.IDFromPublicKey (env.GetPublic sk) = .ok pid ∧ e.Id = env.Pretty pid := by
  cases hl : KeyListCmd.loop env n (sort.Strings names) [] with
  | error err =>
    obtain ⟨key, hk, hfail⟩ := KeyListCmd.loop_error env n _ _ err hl
    obtain ⟨sk, pid, hg, hi⟩ := hres key ((sort.Strings_perm names).mem_iff.mp hk)
    rcases hfail with h | ⟨sk', h1, h2⟩
    · rw [hg] at h
      cases h
    · rw [hg] at h1
      cases h1
      rw [hi] at h2
      cases h2
  | ok list =>
    obtain ⟨tl, h1, h2, h3⟩ := KeyListCmd.loop_ok env n _ _ list hl
    simp only [List.nil_append] at h1
    subst h1
    refine ⟨list, ?_, ?_, ?_, ?_, h3⟩
    · simp only [KeyListCmd.Run, hnode, hlist, hl]
    · rw [h2]
      exact sort.Strings_sorted names
    · rw [h2]
      exact sort.Strings_perm names
    · have := congrArg List.length h2
      rw [List.length_map, (sort.Strings_perm names).length_eq] at this
      exact this

/-- C8 on the keystore holding `b`, `a`, `c` (stored in this order): the listing is `a`, `b`,
`c`. -/
theorem KeyListCmd_sorted_listing_witness :
    KeyListCmd.Run demoKeyEnv bacRequest
        = ⟨none, some ⟨[⟨"a", "Qm-ka.pub"⟩, ⟨"b", "Qm-kb.pub"⟩, ⟨"c", "Qm-kc.pub"⟩]⟩⟩ ∧
      ∃ list : List KeyOutput,
        KeyListCmd.Run demoKeyEnv bacRequest = ⟨none, some ⟨list⟩⟩ ∧
        List.Sorted (· ≤ ·) (list.map (fun e => e.Name)) ∧
        (list.map (fun e => e.Name)).Perm ["b", "a", "c"] ∧
        list.length = 3 ∧
        ∀ e ∈ list, ∃ sk pid, demoKeyEnv.Get bacKeystore e.Name = .ok sk ∧
          demoKeyEnv.IDFromPublicKey (demoKeyEnv.GetPublic sk) = .ok pid ∧
          e.Id = demoKeyEnv.Pretty pid :=
  ⟨by decide,
    KeyListCmd_sorted_listing demoKeyEnv bacRequest bacKeystore ["b", "a", "c"] rfl rfl
      (by
        intro name hname
        simp only [List.mem_cons, List.mem_singleton, List.not_mem_nil, or_false] at hname
        rcases hname with rfl | rfl | rfl
        · exact ⟨"kb", "Qm-kb.pub", by decide, by decide⟩
        · exact ⟨"ka", "Qm-ka.pub", by decide, by decide⟩
        · exact ⟨"kc", "Qm-kc.pub", by decide, by decide⟩)⟩

/-- C10: `KeyListCmd` is all-or-nothing.  If no node is obtained, or `List` fails, or `Get`
or the identifier derivation fails for some listed name, the handler sets an error and does
not call `SetOutput`; and whenever `SetOutput` is called, no error is set, and the node was
obtained, `List` succeeded and every listed name resolved. -/
theorem KeyListCmd_all_or_nothing {KS SK PK PID : Type} (env : KeyEnv KS SK PK PID)
    (req : Request KS) :
    ((∃ e, req.GetNode = .error e) →
      (KeyListCmd.Run env req).err ≠ none ∧ (KeyListCmd.Run env req).output = none) ∧
    (∀ n, req.GetNode = .ok n →
      ((∃ e, env.List n = .error e) ∨
        ∃ names, env.List n = .ok names ∧ ∃ name ∈ names,
          (∃ e, env.Get n name = .error e) ∨
          ∃ sk e, env.Get n name = .ok sk ∧
            env.IDFromPublicKey (env.GetPublic sk) = .error e) →
      (KeyListCmd.Run env req).err ≠ none ∧ (KeyListCmd.Run env req).output = none) ∧
    (∀ out, (KeyListCmd.Run env req).output = some out →
      (KeyListCmd.Run env req).err = none ∧
      ∃ n names, req.GetNode = .ok n ∧ env.List n = .ok names ∧
        out.Keys.length = names.length ∧
        ∀ name ∈ names, ∃ sk pid, env.Get n name = .ok sk ∧
          env.IDFromPublicKey (env.GetPublic sk) = .ok pid) := by
  have key : ∀ out, (KeyListCmd.Run env req).output = some out →
      (KeyListCmd.Run env req).err = none ∧
      ∃ n names, req.GetNode = .ok n ∧ env.List n = .ok names ∧
        out.Keys.length = names.length ∧
        ∀ name ∈ names, ∃ sk pid, env.Get n name = .ok sk ∧
          env.IDFromPublicKey (env.GetPublic sk) = .ok pid := by
    intro out hout
    cases hn : req.GetNode with
    | error e => simp [KeyListCmd.Run, hn] at hout
    | ok n =>
      cases hl : env.List n with
      | error e => simp [KeyListCmd.Run, hn, hl] at hout
      | ok names =>
        cases hloop : KeyListCmd.loop env n (sort.Strings names) [] with
        | error e => simp [KeyListCmd.Run, hn, hl, hloop] at hout
        | ok list =>
          simp only [KeyListCmd.Run, hn, hl, hloop, Option.some.injEq] at hout
          obtain ⟨tl, h1, h2, h3⟩ := KeyListCmd.loop_ok env n _ _ list hloop
          simp only [List.nil_append] at h1
          subst h1
          refine ⟨by simp [KeyListCmd.Run, hn, hl, hloop], n, names, rfl, hl, ?_, ?_⟩
          · rw [← hout]
            have := congrArg List.length h2
            rw [List.length_map, (sort.Strings_perm names).length_eq] at this
            exact this
          · intro name hname
            have hmem : name ∈ list.map (fun e => e.Name) := by
              rw [h2]
              exact (sort.Strings_perm names).mem_iff.mpr hname
            obtain ⟨e, he, rfl⟩ := List.mem_map.mp hmem
            obtain ⟨sk, pid, hg, hi, _⟩ := h3 e he
            exact ⟨sk, pid, hg, hi⟩
  have errOrOut : (KeyListCmd.Run env req).output = none →
      (KeyListCmd.Run env req).err ≠ none := by
    cases hn : req.GetNode with
    | error e => simp [KeyListCmd.Run, hn]
    | ok n =>
      cases hl : env.List n with
      | error e => simp [KeyListCmd.Run, hn, hl]
      | ok names =>
        cases hloop : KeyListCmd.loop env n (sort.Strings names) [] with
        | error e => simp [KeyListCmd.Run, hn, hl, hloop]
        | ok list => simp [KeyListCmd.Run, hn, hl, hloop]
  refine ⟨?_, ?_, key⟩
  · rintro ⟨e, he⟩
    have hout : (KeyListCmd.Run env req).output = none := by
      simp [KeyListCmd.Run, he]
    exact ⟨errOrOut hout, hout⟩
  · intro n hn hfail
    have hout : (KeyListCmd.Run env req).output = none := by
      cases ho : (KeyListCmd.Run env req).output with
      | none => rfl
      | some out =>
        exfalso
        obtain ⟨_, n', names, hn', hl, _, hall⟩ := key out ho
        rw [hn] at hn'
        cases hn'
        rcases hfail with ⟨e, he⟩ | ⟨names', hl', name, hname, hbad⟩
        · rw [hl] at he
          cases he
        · rw [hl] at hl'
          cases hl'
          obtain ⟨sk, pid, hg, hi⟩ := hall name hname
          rcases hbad with ⟨e, he⟩ | ⟨sk', e, hg', he⟩
          · rw [hg] at he
            cases he
          · rw [hg] at hg'
            cases hg'
            rw [hi] at he
            cases he
    exact ⟨errOrOut hout, hout⟩

/-- C10 where the identifier derivation fails: an error, and no output at all although the
keystore lists two names. -/
theorem KeyListCmd_all_or_nothing_witness :
    KeyListCmd.Run brokenIdKeyEnv bacRequest
        = ⟨some (.ext "cannot marshal public key"), none⟩ ∧
      ((KeyListCmd.Run brokenIdKeyEnv bacRequest).err ≠ none ∧
        (KeyListCmd.Run brokenIdKeyEnv bacRequest).output = none) :=
  ⟨by decide,
    (KeyListCmd_all_or_nothing brokenIdKeyEnv bacRequest).2.1 bacKeystore rfl
      (Or.inr ⟨["b", "a", "c"], rfl, "a", by simp,
        Or.inr ⟨"ka", "cannot marshal public key", by decide, by decide⟩⟩)⟩

/-! ## Claims about `initCmd` -/

/-- The two errors `initCmd` creates itself are different errors. -/
theorem errAlreadyExists_ne_errUnsafeBitsize : errAlreadyExists ≠ errUnsafeBitsize := by
  decide

/-- C1 (fails on the code): when the configuration artifact exists (`os.Lstat` returns no
error), `initCmd` never returns the already-exists error, with or without `-f`, whatever the
bit-length and passphrase.  With `-f` false, at least 1024 bits and collaborators that
succeed, it generates a keypair, hands a new record to `config.WriteConfigFile`, returns
what that call returns and leaves the file system that call leaves. -/
theorem initCmd_overwrites_existing_artifact {FS KP PID : Type} (env : InitEnv FS KP PID)
    (fs : FS) (flags : InitFlags) (inp : List String)
    (hexists : env.Lstat fs env.DefaultConfigFilePath = none) :
    (initCmd env fs flags inp).ret ≠ some errAlreadyExists ∧
    ∀ (dspath path : String) (kp : KP) (id : PID) (cfg : Config),
      flags.f = false →
      1024 ≤ flags.b →
      env.TildeExpansion "~/.go-ipfs/datastore" = .ok dspath →
      env.GenKeypair flags.b = .ok kp →
      env.ID kp = .ok id →
      env.TildeExpansion env.DefaultConfigFilePath = .ok path →
      cfg = { Identity := { PeerID := env.Pretty id,
                            PrivKey := base64.EncodeToString (env.PrivBytes kp) },
              Datastore := { Type_ := "leveldb", Path := dspath } } →
      InitCall.GenKeypair flags.b (.ok kp) ∈ (initCmd env fs flags inp).calls ∧
      InitCall.WriteConfigFile path cfg (env.WriteConfigFile fs path cfg).1
        ∈ (initCmd env fs flags inp).calls ∧
      (initCmd env fs flags inp).ret = (env.WriteConfigFile fs path cfg).1.map Err.ext ∧
      (initCmd env fs flags inp).fs = (env.WriteConfigFile fs path cfg).2 := by
  constructor
  · have hne : ∀ e, Err.ext e ≠ errAlreadyExists := fun e h => by cases h
    have hne2 : errUnsafeBitsize ≠ errAlreadyExists :=
      fun h => errAlreadyExists_ne_errUnsafeBitsize h.symm
    cases hds : env.TildeExpansion "~/.go-ipfs/datastore" with
    | error e => simp [initCmd, hexists, hds, hne]
    | ok dspath =>
      by_cases hb : flags.b < 1024
      · simp [initCmd, hexists, hds, hb, hne2]
      · cases hgen : env.GenKeypair flags.b with
        | error e => simp [initCmd, hexists, hds, hb, hgen, hne]
        | ok kp =>
          cases hid : env.ID kp with
          | error e => simp [initCmd, hexists, hds, hb, hgen, hid, hne]
          | ok id =>
            cases hpath : env.TildeExpansion env.DefaultConfigFilePath with
            | error e => simp [initCmd, hexists, hds, hb, hgen, hid, hpath, hne]
            | ok path =>
              simp only [initCmd, hexists, hds, hb, hgen, hid, hpath, ne_eq,
                not_true_eq_false, false_and, if_false]
              split <;> simp [hne]
  · intro dspath path kp id cfg hforce hbits hds hgen hid hpath hcfg
    have hb : ¬ flags.b < 1024 := by omega
    subst hcfg
    simp only [initCmd, hexists, hforce, hds, hgen, hid, hpath, hb, ne_eq, not_true_eq_false,
      false_and, if_false]
    split <;> rename_i hw <;> simp [hw]

/-- C1 at the failing input: an artifact exists, `-f` is false, `-b` is 4096.  The run returns
`nil` and the old record is gone. -/
theorem initCmd_overwrites_existing_artifact_witness :
    (initCmd demoInitEnv (some oldConfig) ⟨4096, "", false⟩ []).ret = none ∧
    (initCmd demoInitEnv (some oldConfig) ⟨4096, "", false⟩ []).fs = some newConfig ∧
    some newConfig ≠ some oldConfig ∧
    (initCmd demoInitEnv (some oldConfig) ⟨4096, "", false⟩ []).ret ≠ some errAlreadyExists ∧
    (InitCall.GenKeypair 4096 (.ok ⟨[48, 130, 0], "QmNode"⟩)
        ∈ (initCmd demoInitEnv (some oldConfig) ⟨4096, "", false⟩ []).calls ∧
      InitCall.WriteConfigFile "/home/ipfs/.go-ipfs/config" newConfig none
        ∈ (initCmd demoInitEnv (some oldConfig) ⟨4096, "", false⟩ []).calls ∧
      (initCmd demoInitEnv (some oldConfig) ⟨4096, "", false⟩ []).ret = none ∧
      (initCmd demoInitEnv (some oldConfig) ⟨4096, "", false⟩ []).fs = some newConfig) :=
  have h := initCmd_overwrites_existing_artifact demoInitEnv (some oldConfig)
    ⟨4096, "", false⟩ [] (by decide)
  ⟨by decide, by decide, by decide, h.1,
    h.2 "/home/ipfs/.go-ipfs/datastore" "/home/ipfs/.go-ipfs/config"
      ⟨[48, 130, 0], "QmNode"⟩ "QmNode" newConfig rfl (by decide) (by decide)
      (by decide) (by decide) (by decide) (by decide)⟩

/-- C2 (fails on the code): when no configuration artifact exists (`os.Lstat` returns an
error) and `-f` is false, `initCmd` returns the already-exists error after the `Lstat` call
alone, whatever the bit-length: nothing is generated and nothing is written. -/
theorem initCmd_fresh_bootstrap_refused {FS KP PID : Type} (env : InitEnv FS KP PID)
    (fs : FS) (flags : InitFlags) (inp : List String) (e : String)
    (hfresh : env.Lstat fs env.DefaultConfigFilePath = some e)
    (hforce : flags.f = false) :
    (initCmd env fs flags inp).ret = some errAlreadyExists ∧
    (initCmd env fs flags inp).calls = [.Lstat env.DefaultConfigFilePath (some e)] ∧
    (initCmd env fs flags inp).fs = fs := by
  simp [initCmd, hfresh, hforce]

/-- C2 at the failing input: no artifact, `-f` false, `-b` 4096. -/
theorem initCmd_fresh_bootstrap_refused_witness :
    demoInitEnv.Lstat none demoInitEnv.DefaultConfigFilePath
        = some "lstat ~/.go-ipfs/config: no such file or directory" ∧
    ((initCmd demoInitEnv none ⟨4096, "", false⟩ []).ret = some errAlreadyExists ∧
      (initCmd demoInitEnv none ⟨4096, "", false⟩ []).calls
        = [.Lstat demoInitEnv.DefaultConfigFilePath
            (some "lstat ~/.go-ipfs/config: no such file or directory")] ∧
      (initCmd demoInitEnv none ⟨4096, "", false⟩ []).fs = none) :=
  ⟨by decide,
    initCmd_fresh_bootstrap_refused demoInitEnv none ⟨4096, "", false⟩ [] _ (by decide) rfl⟩

/-- C5 as stated fails: `-f` is given and `-b` is 512, but the home directory cannot be
determined, so `initCmd` returns the error of `u.TildeExpansion` and not the bit-size
error. -/
theorem initCmd_bitsize_floor_counterexample :
    (initCmd noHomeInitEnv (some oldConfig) ⟨512, "", true⟩ []).ret
        = some (.ext "user: Current not implemented") ∧
    (initCmd noHomeInitEnv (some oldConfig) ⟨512, "", true⟩ []).ret ≠ some errUnsafeBitsize := by
  decide

/-- C5, amended: for every bit-length below 1024 `initCmd` calls neither
`identify.GenKeypair` nor `config.WriteConfigFile` and leaves the file system as it was; if
moreover the overwrite guard is passed (the artifact exists or `-f` is given) and the tilde
expansion of the datastore path succeeds, it returns the bit-size error.  For every
bit-length of 1024 or more the bit-size error is never returned. -/
theorem initCmd_bitsize_floor {FS KP PID : Type} (env : InitEnv FS KP PID)
    (fs : FS) (flags : InitFlags) (inp : List String) :
    (flags.b < 1024 →
      (∀ bits res, InitCall.GenKeypair bits res ∉ (initCmd env fs flags inp).calls) ∧
      (∀ p c e, InitCall.WriteConfigFile p c e ∉ (initCmd env fs flags inp).calls) ∧
      (initCmd env fs flags inp).fs = fs ∧
      ((env.Lstat fs env.DefaultConfigFilePath = none ∨ flags.f = true) →
        (∃ dspath, env.TildeExpansion "~/.go-ipfs/datastore" = .ok dspath) →
        (initCmd env fs flags inp).ret = some errUnsafeBitsize)) ∧
    (1024 ≤ flags.b → (initCmd env fs flags inp).ret ≠ some errUnsafeBitsize) := by
  constructor
  · intro hb
    cases hL : env.Lstat fs env.DefaultConfigFilePath <;> cases hf : flags.f <;>
      cases hds : env.TildeExpansion "~/.go-ipfs/datastore" <;>
      simp [initCmd, hL, hf, hds, hb]
  · intro hb
    have hb' : ¬ flags.b < 1024 := by omega
    have hne : ∀ e, Err.ext e ≠ errUnsafeBitsize := fun e h => by cases h
    cases hL : env.Lstat fs env.DefaultConfigFilePath <;> cases hf : flags.f <;>
      cases hds : env.TildeExpansion "~/.go-ipfs/datastore" <;>
      simp only [initCmd, hL, hf, hds, hb', ne_eq, not_true_eq_false, not_false_eq_true,
        false_and, true_and, and_self, and_false, if_false, if_true, Bool.not_false,
        Bool.not_true, Option.some.injEq, reduceCtorEq, Bool.false_eq_true, hne,
        errAlreadyExists_ne_errUnsafeBitsize] <;>
      (cases hgen : env.GenKeypair flags.b <;>
        simp only [Option.some.injEq, hne, not_false_eq_true]) <;>
      (rename_i kp
       cases hid : env.ID kp <;>
        simp only [Option.some.injEq, hne, not_false_eq_true]) <;>
      (cases hpath : env.TildeExpansion env.DefaultConfigFilePath <;>
        simp only [Option.some.injEq, hne, not_false_eq_true]) <;>
      (split <;> simp [hne])

/-- C5, amended, run with `-f` on the demonstration collaborators: 512 bits give the
bit-size error, 1024 bits do not. -/
theorem initCmd_bitsize_floor_witness :
    (initCmd demoInitEnv none ⟨512, "", true⟩ []).ret = some errUnsafeBitsize ∧
    (initCmd demoInitEnv none ⟨1024, "", true⟩ []).ret ≠ some errUnsafeBitsize :=
  ⟨((initCmd_bitsize_floor demoInitEnv none ⟨512, "", true⟩ []).1 (by decide)).2.2.2
      (Or.inr rfl) ⟨_, rfl⟩,
    (initCmd_bitsize_floor demoInitEnv none ⟨1024, "", true⟩ []).2 (by decide)⟩

/-- The run of `initCmd` in which the guard is passed and every collaborator up to the
write succeeds: the whole result.  The record handed to `config.WriteConfigFile` is the one
built from this run's keypair; the returned error and the file system left are those of
that call. -/
theorem initCmd_reaches_write {FS KP PID : Type} (env : InitEnv FS KP PID)
    (fs : FS) (flags : InitFlags) (inp : List String) (dspath path : String) (kp : KP)
    (id : PID)
    (hguard : env.Lstat fs env.DefaultConfigFilePath = none ∨ flags.f = true)
    (hds : env.TildeExpansion "~/.go-ipfs/datastore" = .ok dspath)
    (hb : ¬ flags.b < 1024)
    (hgen : env.GenKeypair flags.b = .ok kp)
    (hid : env.ID kp = .ok id)
    (hpath : env.TildeExpansion env.DefaultConfigFilePath = .ok path) :
    initCmd env fs flags inp =
      { ret := (env.WriteConfigFile fs path
            { Identity := { PeerID := env.Pretty id,
                            PrivKey := base64.EncodeToString (env.PrivBytes kp) },
              Datastore := { Type_ := "leveldb", Path := dspath } }).1.map Err.ext,
        calls :=
          [.Lstat env.DefaultConfigFilePath (env.Lstat fs env.DefaultConfigFilePath),
           .TildeExpansion "~/.go-ipfs/datastore" (.ok dspath),
           .GenKeypair flags.b (.ok kp), .ID kp (.ok id),
           .TildeExpansion env.DefaultConfigFilePath (.ok path),
           .WriteConfigFile path
             { Identity := { PeerID := env.Pretty id,
                             PrivKey := base64.EncodeToString (env.PrivBytes kp) },
               Datastore := { Type_ := "leveldb", Path := dspath } }
             (env.WriteConfigFile fs path
               { Identity := { PeerID := env.Pretty id,
                               PrivKey := base64.EncodeToString (env.PrivBytes kp) },
                 Datastore := { Type_ := "leveldb", Path := dspath } }).1],
        fs := (env.WriteConfigFile fs path
            { Identity := { PeerID := env.Pretty id,
                            PrivKey := base64.EncodeToString (env.PrivBytes kp) },
              Datastore := { Type_ := "leveldb", Path := dspath } }).2 } := by
  have hg : ¬ (env.Lstat fs env.DefaultConfigFilePath ≠ none ∧ (!flags.f) = true) := by
    rintro ⟨h1, h2⟩
    rcases hguard with h | h
    · exact h1 h
    · simp [h] at h2
  unfold initCmd
  simp only [if_neg hg, hds, if_neg hb, hgen, hid, hpath]
  split <;> rename_i hw <;> simp [hw]

/-- C9: every call `initCmd` makes to `config.WriteConfigFile` is the call
`env.WriteConfigFile fs path cfg` on the file system the run started with, where `path` is
the tilde expansion of `config.DefaultConfigFilePath` and `cfg` belongs to the one keypair
that `identify.GenKeypair` returned in the same run: its `PeerID` is `Pretty` of that
keypair's `ID()`, its `PrivKey` is the standard base64 encoding of that keypair's
`PrivBytes()` (hence decodes back to exactly these bytes), its datastore type is `leveldb`
and its datastore path is the tilde expansion of `~/.go-ipfs/datastore`.  The logged error
is the error of that call, which `initCmd` returns; the file system `initCmd` leaves is
the one that call leaves; and it is the only write of the run.  The passphrase flag is not
read. -/
theorem initCmd_written_record {FS KP PID : Type} (env : InitEnv FS KP PID)
    (fs : FS) (flags : InitFlags) (inp : List String) (path : String) (cfg : Config)
    (e : Option String)
    (hw : InitCall.WriteConfigFile path cfg e ∈ (initCmd env fs flags inp).calls) :
    ∃ kp id dspath,
      InitCall.GenKeypair flags.b (.ok kp) ∈ (initCmd env fs flags inp).calls ∧
      (∀ bits res, InitCall.GenKeypair bits res ∈ (initCmd env fs flags inp).calls →
        bits = flags.b ∧ res = .ok kp) ∧
      env.ID kp = .ok id ∧
      env.TildeExpansion "~/.go-ipfs/datastore" = .ok dspath ∧
      cfg.Identity.PeerID = env.Pretty id ∧
      cfg.Identity.PrivKey = base64.EncodeToString (env.PrivBytes kp) ∧
      base64.DecodeString cfg.Identity.PrivKey = some (env.PrivBytes kp) ∧
      cfg.Datastore.Type_ = "leveldb" ∧
      cfg.Datastore.Path = dspath ∧
      cfg = { Identity := { PeerID := env.Pretty id,
                            PrivKey := base64.EncodeToString (env.PrivBytes kp) },
              Datastore := { Type_ := "leveldb", Path := dspath } } ∧
      env.TildeExpansion env.DefaultConfigFilePath = .ok path ∧
      e = (env.WriteConfigFile fs path cfg).1 ∧
      (initCmd env fs flags inp).ret = (env.WriteConfigFile fs path cfg).1.map Err.ext ∧
      (initCmd env fs flags inp).fs = (env.WriteConfigFile fs path cfg).2 ∧
      (∀ p c e1, InitCall.WriteConfigFile p c e1 ∈ (initCmd env fs flags inp).calls →
        p = path ∧ c = cfg ∧ e1 = e) := by
  cases hL : env.Lstat fs env.DefaultConfigFilePath <;> cases hf : flags.f <;>
    (try (simp [initCmd, hL, hf] at hw; done)) <;>
    (cases hds : env.TildeExpansion "~/.go-ipfs/datastore" with
     | error e1 => simp [initCmd, hL, hf, hds] at hw
     | ok dspath =>
       by_cases hb : flags.b < 1024
       · simp [initCmd, hL, hf, hds, hb] at hw
       · cases hgen : env.GenKeypair flags.b with
         | error e1 => simp [initCmd, hL, hf, hds, hb, hgen] at hw
         | ok kp =>
           cases hid : env.ID kp with
           | error e1 => simp [initCmd, hL, hf, hds, hb, hgen, hid] at hw
           | ok id =>
             cases hpath : env.TildeExpansion env.DefaultConfigFilePath with
             | error e1 => simp [initCmd, hL, hf, hds, hb, hgen, hid, hpath] at hw
             | ok path1 =>
               have hguard : env.Lstat fs env.DefaultConfigFilePath = none ∨ flags.f = true := by
                 first
                   | exact Or.inl hL
                   | exact Or.inr hf
               have hrun := initCmd_reaches_write env fs flags inp dspath path1 kp id
                 hguard hds hb hgen hid hpath
               rw [hrun] at hw ⊢
               simp only [List.mem_cons, List.mem_singleton, List.not_mem_nil, or_false,
                 reduceCtorEq, false_or, InitCall.WriteConfigFile.injEq] at hw
               obtain ⟨rfl, rfl, rfl⟩ := hw
               refine ⟨kp, id, dspath, by simp, ?_, hid, rfl, rfl, rfl,
                 base64.DecodeString_EncodeToString _, rfl, rfl, rfl, rfl, rfl, rfl, rfl, ?_⟩
               · intro bits res hmem
                 simp only [List.mem_cons, List.mem_singleton, List.not_mem_nil, or_false,
                   reduceCtorEq, false_or, or_false, InitCall.GenKeypair.injEq] at hmem
                 exact hmem
               · intro p c e1 hmem
                 simp only [List.mem_cons, List.mem_singleton, List.not_mem_nil, or_false,
                   reduceCtorEq, false_or, InitCall.WriteConfigFile.injEq] at hmem
                 exact hmem)

/-- C9 on the demonstration collaborators, bootstrapping with `-f`, 2048 bits and a
passphrase over an existing artifact: the record passed to the write, and the file system
afterwards, which holds exactly that record. -/
theorem initCmd_written_record_witness :
    InitCall.WriteConfigFile "/home/ipfs/.go-ipfs/config" newConfig none
        ∈ (initCmd demoInitEnv (some oldConfig) ⟨2048, "correct horse", true⟩ []).calls ∧
    base64.DecodeString newConfig.Identity.PrivKey = some [48, 130, 0] ∧
    (initCmd demoInitEnv (some oldConfig) ⟨2048, "correct horse", true⟩ []).fs
      = some newConfig ∧
    (initCmd demoInitEnv (some oldConfig) ⟨2048, "correct horse", true⟩ []).ret = none ∧
    ∃ kp id dspath,
      InitCall.GenKeypair 2048 (.ok kp)
        ∈ (initCmd demoInitEnv (some oldConfig) ⟨2048, "correct horse", true⟩ []).calls ∧
      (∀ bits res, InitCall.GenKeypair bits res
          ∈ (initCmd demoInitEnv (some oldConfig) ⟨2048, "correct horse", true⟩ []).calls →
        bits = 2048 ∧ res = .ok kp) ∧
      demoInitEnv.ID kp = .ok id ∧
      demoInitEnv.TildeExpansion "~/.go-ipfs/datastore" = .ok dspath ∧
      newConfig.Identity.PeerID = demoInitEnv.Pretty id ∧
      newConfig.Identity.PrivKey = base64.EncodeToString (demoInitEnv.PrivBytes kp) ∧
      base64.DecodeString newConfig.Identity.PrivKey = some (demoInitEnv.PrivBytes kp) ∧
      newConfig.Datastore.Type_ = "leveldb" ∧
      newConfig.Datastore.Path = dspath ∧
      newConfig = { Identity := { PeerID := demoInitEnv.Pretty id,
                                  PrivKey := base64.EncodeToString (demoInitEnv.PrivBytes kp) },
                    Datastore := { Type_ := "leveldb", Path := dspath } } ∧
      demoInitEnv.TildeExpansion demoInitEnv.DefaultConfigFilePath
        = .ok "/home/ipfs/.go-ipfs/config" ∧
      none = (demoInitEnv.WriteConfigFile (some oldConfig)
        "/home/ipfs/.go-ipfs/config" newConfig).1 ∧
      (initCmd demoInitEnv (some oldConfig) ⟨2048, "correct horse", true⟩ []).ret
        = (demoInitEnv.WriteConfigFile (some oldConfig)
            "/home/ipfs/.go-ipfs/config" newConfig).1.map Err.ext ∧
      (initCmd demoInitEnv (some oldConfig) ⟨2048, "correct horse", true⟩ []).fs
        = (demoInitEnv.WriteConfigFile (some oldConfig)
            "/home/ipfs/.go-ipfs/config" newConfig).2 ∧
      (∀ p c e1, InitCall.WriteConfigFile p c e1
          ∈ (initCmd demoInitEnv (some oldConfig) ⟨2048, "correct horse", true⟩ []).calls →
        p = "/home/ipfs/.go-ipfs/config" ∧ c = newConfig ∧ e1 = none) :=
  ⟨by decide, by decide, by decide, by decide,
    initCmd_written_record demoInitEnv (some oldConfig) ⟨2048, "correct horse", true⟩ []
      "/home/ipfs/.go-ipfs/config" newConfig none (by decide)⟩

/-! ## Claims about `KeyGenCmd` -/

/-- C3 as stated fails: the name is `self` and `--type` is supplied, yet the error set is not
the reserved-name error, once because no node is obtained and once because the size option
cannot be read. -/
theorem KeyGenCmd_self_counterexample :
    (selfRequestNoNode.Arguments = ["self"] ∧
      selfRequestNoNode.OptionType = ("ed25519", true, none) ∧
      (KeyGenCmd.Run demoKeyEnv selfRequestNoNode).res.err = some (.ext "no ipfs repo found") ∧
      (KeyGenCmd.Run demoKeyEnv selfRequestNoNode).res.err ≠ some errSelf) ∧
    (selfRequestBadSize.Arguments = ["self"] ∧
      selfRequestBadSize.OptionType = ("ed25519", true, none) ∧
      (KeyGenCmd.Run demoKeyEnv selfRequestBadSize).res.err = some (.ext "cast error") ∧
      (KeyGenCmd.Run demoKeyEnv selfRequestBadSize).res.err ≠ some errSelf) := by
  decide

/-- C3, amended: for every request whose name argument is `self`, the handler sets an error,
sets no output, makes no collaborator call at all (no key generator, no `Put`) and leaves
the keystore as it was; and when the node is obtained, `--type` is supplied and `--type` and
`--size` (present or not) are read without error, the error is the reserved-name error,
whatever the type string. -/
theorem KeyGenCmd_self_rejected {KS SK PK PID : Type} (env : KeyEnv KS SK PK PID)
    (req : Request KS) (rest : List String)
    (hname : req.Arguments = "self" :: rest) :
    (KeyGenCmd.Run env req).res.err ≠ none ∧
    (KeyGenCmd.Run env req).res.output = none ∧
    (KeyGenCmd.Run env req).calls = [] ∧
    (KeyGenCmd.Run env req).panicked = false ∧
    (∀ n, req.GetNode = .ok n → (KeyGenCmd.Run env req).ks = some n) ∧
    (∀ n typ size sizefound, req.GetNode = .ok n → req.OptionType = (typ, true, none) →
      req.OptionSize = (size, sizefound, none) →
      (KeyGenCmd.Run env req).res.err = some errSelf) := by
  rcases hT : req.OptionType with ⟨typ, f, terr⟩
  rcases hS : req.OptionSize with ⟨size, sizefound, serr⟩
  cases hN : req.GetNode <;> cases terr <;> cases f <;> cases serr <;>
    simp [KeyGenCmd.Run, hT, hS, hN, hname]

/-- C3, amended, on `key gen --type rsa --size 4096 self`. -/
theorem KeyGenCmd_self_rejected_witness :
    (KeyGenCmd.Run demoKeyEnv selfRequest).res = ⟨some errSelf, none⟩ ∧
    (KeyGenCmd.Run demoKeyEnv selfRequest).calls = [] ∧
    (KeyGenCmd.Run demoKeyEnv selfRequest).ks = some [] :=
  have h := KeyGenCmd_self_rejected demoKeyEnv selfRequest [] rfl
  ⟨by
      have h1 := h.2.2.2.2.2 [] "rsa" 4096 true rfl rfl rfl
      have h2 := h.2.1
      cases hr : (KeyGenCmd.Run demoKeyEnv selfRequest).res with
      | mk err output =>
        rw [hr] at h1 h2
        simp only at h1 h2
        rw [h1, h2],
    h.2.2.1, h.2.2.2.2.1 [] rfl⟩

/-- C4 (fails on the code): for type `rsa` with a size, whatever the size, the handler has no
check of its own.  Its first act is the call to `ci.GenerateKeyPairWithReader` with that
size; it never sets an error it created itself; and when the provider returns a pair the
handler calls `Keystore().Put` with it. -/
theorem KeyGenCmd_rsa_size_unchecked {KS SK PK PID : Type} (env : KeyEnv KS SK PK PID)
    (req : Request KS) (n : KS) (name : String) (rest : List String) (size : Int)
    (hnode : req.GetNode = .ok n)
    (htype : req.OptionType = ("rsa", true, none))
    (hsize : req.OptionSize = (size, true, none))
    (hname : req.Arguments = name :: rest)
    (hself : name ≠ "self") :
    (KeyGenCmd.Run env req).calls.head?
      = some (.GenerateKeyPairWithReader size (env.GenerateKeyPairWithReader size)) ∧
    (∀ msg, (KeyGenCmd.Run env req).res.err ≠ some (.new msg)) ∧
    (∀ sk pk, env.GenerateKeyPairWithReader size = .ok (sk, pk) →
      KeyCall.Put name sk (env.Put n name sk).1 ∈ (KeyGenCmd.Run env req).calls) := by
  cases hg : env.GenerateKeyPairWithReader size with
  | error e => simp [KeyGenCmd.Run, hnode, htype, hsize, hname, hself, hg]
  | ok pair =>
    obtain ⟨sk, pk⟩ := pair
    cases hp : (env.Put n name sk).1 with
    | some e => simp [KeyGenCmd.Run, KeyGenCmd.store, hnode, htype, hsize, hname, hself, hg, hp]
    | none =>
      cases hi : env.IDFromPublicKey pk <;>
        simp [KeyGenCmd.Run, KeyGenCmd.store, hnode, htype, hsize, hname, hself, hg, hp, hi]

/-- C4 at the failing input `key gen --type rsa --size 512 weak`, with a provider that
accepts 512 bits: the key is generated, stored and reported. -/
theorem KeyGenCmd_rsa_size_unchecked_witness :
    (KeyGenCmd.Run demoKeyEnv weakRequest).res = ⟨none, some ⟨"weak", "Qm-rsa-priv.pub"⟩⟩ ∧
    (KeyGenCmd.Run demoKeyEnv weakRequest).ks = some [("weak", "rsa-priv")] ∧
    ((KeyGenCmd.Run demoKeyEnv weakRequest).calls.head?
        = some (.GenerateKeyPairWithReader 512 (.ok ("rsa-priv", "rsa-priv.pub"))) ∧
      (∀ msg, (KeyGenCmd.Run demoKeyEnv weakRequest).res.err ≠ some (.new msg)) ∧
      (∀ sk pk, demoKeyEnv.GenerateKeyPairWithReader 512 = .ok (sk, pk) →
        KeyCall.Put "weak" sk (demoKeyEnv.Put [] "weak" sk).1
          ∈ (KeyGenCmd.Run demoKeyEnv weakRequest).calls)) :=
  ⟨by decide, by decide,
    KeyGenCmd_rsa_size_unchecked demoKeyEnv weakRequest [] "weak" [] 512 rfl rfl rfl rfl
      (by decide)⟩

/-- C6 (fails on the code): when the key is generated and stored and the identifier
derivation then fails, the handler sets the derivation error and no output, but the keystore
is the one `Put` left: the new entry stays. -/
theorem KeyGenCmd_entry_kept_when_derivation_fails {KS SK PK PID : Type}
    (env : KeyEnv KS SK PK PID) (req : Request KS) (n ks1 : KS) (name typ : String)
    (rest : List String) (size : Int) (sizefound : Bool) (sk : SK) (pk : PK) (e : String)
    (hnode : req.GetNode = .ok n)
    (htype : req.OptionType = (typ, true, none))
    (hsize : req.OptionSize = (size, sizefound, none))
    (hname : req.Arguments = name :: rest)
    (hself : name ≠ "self")
    (hgen : (typ = "rsa" ∧ sizefound = true ∧
          env.GenerateKeyPairWithReader size = .ok (sk, pk)) ∨
        (typ = "ed25519" ∧ env.GenerateEd25519Key = .ok (sk, pk)))
    (hput : env.Put n name sk = (none, ks1))
    (hid : env.IDFromPublicKey pk = .error e) :
    (KeyGenCmd.Run env req).res = ⟨some (.ext e), none⟩ ∧
    (KeyGenCmd.Run env req).ks = some ks1 ∧
    KeyCall.Put name sk none ∈ (KeyGenCmd.Run env req).calls := by
  rcases hgen with ⟨rfl, rfl, hg⟩ | ⟨rfl, hg⟩
  · simp [KeyGenCmd.Run, KeyGenCmd.store, hnode, htype, hsize, hname, hself, hg, hput, hid]
  · have hne : ¬ ("ed25519" = "rsa") := by decide
    simp [KeyGenCmd.Run, KeyGenCmd.store, hnode, htype, hsize, hname, hself, hg, hput, hid,
      hne]

/-- C6 at the failing input `key gen --type ed25519 node1` on an empty keystore, with an
identifier derivation that fails: the handler reports the error, and `node1` is in the
keystore afterwards. -/
theorem KeyGenCmd_entry_kept_when_derivation_fails_witness :
    memGet [] "node1" = .error "no key by the given name was found" ∧
    memGet [("node1", "ed-priv")] "node1" = .ok "ed-priv" ∧
    ((KeyGenCmd.Run brokenIdKeyEnv node1Request).res
        = ⟨some (.ext "cannot marshal public key"), none⟩ ∧
      (KeyGenCmd.Run brokenIdKeyEnv node1Request).ks = some [("node1", "ed-priv")] ∧
      KeyCall.Put "node1" "ed-priv" none ∈ (KeyGenCmd.Run brokenIdKeyEnv node1Request).calls) :=
  ⟨by decide, by decide,
    KeyGenCmd_entry_kept_when_derivation_fails brokenIdKeyEnv node1Request []
      [("node1", "ed-priv")] "node1" "ed25519" [] 0 false "ed-priv" "ed-priv.pub"
      "cannot marshal public key" rfl rfl rfl rfl (by decide) (Or.inr ⟨rfl, rfl⟩)
      (by decide) rfl⟩

/-- The success path of `KeyGenCmd`: with a node, a supplied type that is `rsa` with a size
or `ed25519`, a name other than `self`, and collaborators that succeed, the handler makes
exactly three calls (generate, `Put`, derive) and outputs the name with the derived
identifier. -/
theorem KeyGenCmd.Run_success {KS SK PK PID : Type}
    (env : KeyEnv KS SK PK PID) (req : Request KS) (n ks1 : KS) (name typ : String)
    (rest : List String) (size : Int) (sizefound : Bool) (sk : SK) (pk : PK) (pid : PID)
    (hnode : req.GetNode = .ok n)
    (htype : req.OptionType = (typ, true, none))
    (hsize : req.OptionSize = (size, sizefound, none))
    (hname : req.Arguments = name :: rest)
    (hself : name ≠ "self")
    (hgen : (typ = "rsa" ∧ sizefound = true ∧
          env.GenerateKeyPairWithReader size = .ok (sk, pk)) ∨
        (typ = "ed25519" ∧ env.GenerateEd25519Key = .ok (sk, pk)))
    (hput : env.Put n name sk = (none, ks1))
    (hid : env.IDFromPublicKey pk = .ok pid) :
    (KeyGenCmd.Run env req).res = ⟨none, some ⟨name, env.Pretty pid⟩⟩ ∧
    (KeyGenCmd.Run env req).ks = some ks1 ∧
    (KeyGenCmd.Run env req).panicked = false ∧
    ∃ g, (KeyGenCmd.Run env req).calls
        = [g, .Put name sk none, .IDFromPublicKey pk (.ok pid)] ∧
      (g = .GenerateKeyPairWithReader size (.ok (sk, pk)) ∨
        g = .GenerateEd25519Key (.ok (sk, pk))) := by
  rcases hgen with ⟨rfl, rfl, hg⟩ | ⟨rfl, hg⟩
  · simp [KeyGenCmd.Run, KeyGenCmd.store, hnode, htype, hsize, hname, hself, hg, hput, hid]
  · have hne : ¬ ("ed25519" = "rsa") := by decide
    simp [KeyGenCmd.Run, KeyGenCmd.store, hnode, htype, hsize, hname, hself, hg, hput, hid,
      hne]

end GoIpfs
